import Mathlib

/-!
# Verification of the Mentiq client-side telemetry engine

Shallow embedding of `src/index.ts` (class `MentiqClient`): the event
buffer, batching/delivery logic, session lifecycle, consent gate,
property maps and the plugin pipeline, with the ambient environment
(clock, random session ids, page location/visibility) passed as
explicit parameters.  JavaScript objects (`Record<string, unknown>`)
are represented as association lists with last-binding-wins lookup,
matching object-spread semantics.  Asynchronous delivery (`fetch`
promises) is represented by a list of in-flight batches (`pending`);
the `.then` / `.catch` handlers are the explicit `resolveFlush`
transition applied when an attempt resolves.
-/

namespace Mentiq

/-- A JSON-ish property value (numbers and strings suffice for the
properties the engine itself manipulates). -/
inductive JVal where
  | jnum : Nat → JVal
  | jstr : String → JVal
deriving DecidableEq

/-- A JavaScript object used as a property bag: an association list in
insertion order.  Object spread `\x7b...a, ...b\x7d` is `a ++ b`. -/
abbrev Props := List (String × JVal)

/-- Key lookup with JavaScript-object semantics: the value of the last
binding of `k` wins (a later spread overrides an earlier one). -/
def getP (ps : Props) (k : String) : Option JVal :=
  ps.foldl (fun acc kv => if kv.1 = k then some kv.2 else acc) none

/-- `MentiqEvent` (src/index.ts lines 16-23).  The TypeScript interface
declares `session_id : string`, but at runtime the field holds whatever
`this.sessionId` holds when the event is built, which can be
`undefined` before the constructor's assignment completes; we therefore
model it as `Option String` to reflect the runtime value faithfully. -/
structure MEvent where
  event : String
  distinct_id : Option String
  session_id : Option String
  timestamp : Nat
  url : Option String
  properties : Props
deriving DecidableEq

/-- Argument of a plugin's `afterFlush` hook (src/index.ts line 30). -/
structure FlushResult where
  ok : Bool
  status : Option Nat
  count : Nat
deriving DecidableEq

/-- `MentiqPlugin` (src/index.ts lines 25-31).  A `beforeEnqueue` hook
returning `none` models the source hook returning `false` (drop the
event).  An `afterFlush` hook returning `false` models the hook body
throwing an exception; `true` models a normal return.  A `none` field
models an absent optional hook. -/
structure MPlugin where
  name : String
  beforeEnqueue : Option (MEvent → Option MEvent)
  afterFlush : Option (FlushResult → Bool)

/-- Resolved configuration fields that influence the modelled state
(logging, click-capture and similar presentation-only switches are
omitted: they never touch the buffer, session or consent state). -/
structure MConfig where
  maxBatchSize : Nat
  flushIntervalMs : Nat
  sessionTimeoutMs : Nat
  enablePersistence : Bool
  autoPageview : Bool

/-- `DEFAULTS` (src/index.ts lines 45-53). -/
def DEFAULTS : MConfig :=
  { maxBatchSize := 20
    flushIntervalMs := 3000
    sessionTimeoutMs := 30 * 60 * 1000
    enablePersistence := true
    autoPageview := true }

/-- The mutable state of a `MentiqClient` instance (src/index.ts lines
126-147), together with two ambient-environment snapshots: `loc` is the
page location used for the `url` stamp, `hidden` the page-visibility
flag consulted by `flush`.  `pending` records delivery attempts whose
`fetch` promise has not resolved yet; `flushTimerArmed` records whether
a `setTimeout` flush timer is currently scheduled. -/
structure ClientState where
  config : MConfig
  queue : List MEvent
  flushTimerArmed : Bool
  sessionId : Option String
  distinctId : Option String
  superProps : Props
  userProps : Props
  optedOut : Bool
  lastActivityTs : Nat
  plugins : List MPlugin
  pending : List (List MEvent)
  loc : Option String
  hidden : Bool

/-- `this.config.maxBatchSize || DEFAULTS.maxBatchSize` — JavaScript
`||` substitutes the default when the configured value is falsy (0). -/
def resolvedMaxBatch (st : ClientState) : Nat :=
  if st.config.maxBatchSize = 0 then DEFAULTS.maxBatchSize else st.config.maxBatchSize

/-- `this.config.sessionTimeoutMs || DEFAULTS.sessionTimeoutMs`. -/
def resolvedSessionTimeout (st : ClientState) : Nat :=
  if st.config.sessionTimeoutMs = 0 then DEFAULTS.sessionTimeoutMs else st.config.sessionTimeoutMs

/-- `applyBeforeEnqueue` (src/index.ts lines 426-433): fold the event
through the registered plugins in registration order; a `false`
(`none`) return short-circuits the remaining plugins. -/
def applyBeforeEnqueue (plugins : List MPlugin) (event : MEvent) : Option MEvent :=
  plugins.foldl
    (fun current p =>
      match current with
      | none => none
      | some e =>
        match p.beforeEnqueue with
        | some f => f e
        | none => some e)
    (some event)

/-- Assembly of an event payload as done in `track` (lines 181-188) and
`enqueueInternal` (lines 413-420): super-properties are spread in only
when persistence is enabled, then the call-site properties, which win
on key collision. -/
def mkEvent (st : ClientState) (now : Nat) (name : String) (props : Props) : MEvent :=
  { event := name
    distinct_id := st.distinctId
    session_id := st.sessionId
    timestamp := now
    url := st.loc
    properties := (if st.config.enablePersistence then st.superProps else []) ++ props }

/-- `ensureFlushTimer` (lines 267-273): arm a flush timer unless one is
already scheduled. -/
def ensureFlushTimer (st : ClientState) : ClientState :=
  if st.flushTimerArmed then st else { st with flushTimerArmed := true }

/-- The synchronous part of `flush` (lines 237-255): cut up to
`maxBatchSize` events from the head of the queue; when the page is
hidden, hand the batch to `sendBeacon` (fire-and-forget, never
observed again), otherwise start a `fetch` whose resolution is a later
`resolveFlush` step — the batch becomes an in-flight `pending` entry.
An empty queue is a no-op and issues no network call. -/
def flush (st : ClientState) : ClientState :=
  if st.queue.length = 0 then st
  else
    let batch := st.queue.take (resolvedMaxBatch st)
    let rest := st.queue.drop (resolvedMaxBatch st)
    if st.hidden then { st with queue := rest }
    else { st with queue := rest, pending := st.pending ++ [batch] }

/-- The delivery attempt's outcome: the request completed with some
HTTP status (the `.then` handler, any status code), or it failed at
the transport level (the `.catch` handler). -/
inductive Outcome where
  | completed : Nat → Outcome
  | transportFail : Outcome

/-- `this.plugins.forEach(p => p.afterFlush?.(result))` (lines 258 and
262): hooks run sequentially in registration order; a hook that throws
(`false` in the model) aborts the `forEach`, so later plugins are not
reached.  Returns the names of the plugins whose hook was invoked. -/
def notifyAfterFlush (plugins : List MPlugin) (r : FlushResult) : List String :=
  match plugins with
  | [] => []
  | p :: rest =>
    match p.afterFlush with
    | none => notifyAfterFlush rest r
    | some hook =>
      if hook r then p.name :: notifyAfterFlush rest r
      else [p.name]

/-- The `.then` / `.catch` handlers of `flush`'s `fetch` (lines
256-263), fired when the in-flight attempt for `batch` resolves: on a
completed response the batch is simply dropped and plugins see
`ok := true` with the status; on transport failure the whole batch is
spliced back at the head of the queue and plugins see `ok := false`.
Returns the new state, the result record, and the plugins notified.
The function is total: neither path raises to any caller. -/
def resolveFlush (st : ClientState) (batch : List MEvent) (o : Outcome) :
    ClientState × FlushResult × List String :=
  match o with
  | .completed status =>
    let r : FlushResult := { ok := true, status := some status, count := batch.length }
    ({ st with pending := st.pending.erase batch }, r, notifyAfterFlush st.plugins r)
  | .transportFail =>
    let r : FlushResult := { ok := false, status := none, count := batch.length }
    ({ st with pending := st.pending.erase batch, queue := batch ++ st.queue },
     r, notifyAfterFlush st.plugins r)

/-- `enqueueInternal` (lines 412-424): build the payload, run it
through the plugin pipeline, push it unless vetoed, arm the timer.
Note: unlike `track`, no batch-size check is performed here. -/
def enqueueInternal (st : ClientState) (now : Nat) (name : String) (props : Props) :
    ClientState :=
  let ev := mkEvent st now name props
  let st1 :=
    match applyBeforeEnqueue st.plugins ev with
    | some processed => { st with queue := st.queue ++ [processed] }
    | none => st
  ensureFlushTimer st1

/-- `markActivity` (lines 369-382): the activity probe.  If the
inactivity gap exceeds the session timeout, synthesize `session_end`
(still under the old session id, carrying the inactivity duration),
mint and install a fresh session id (`freshId` stands for the random
identifier), synthesize `session_start` under the new id, then stamp
`lastActivityTs := now`.  Consent is not consulted here. -/
def markActivity (st : ClientState) (now : Nat) (freshId : String) : ClientState :=
  let timeout := resolvedSessionTimeout st
  let inactiveFor := now - st.lastActivityTs
  let st1 :=
    if inactiveFor > timeout then
      let stA := enqueueInternal st now "session_end" [("inactive_ms", JVal.jnum inactiveFor)]
      let stB := { stA with sessionId := some freshId }
      enqueueInternal stB now "session_start" []
    else st
  { st1 with lastActivityTs := now }

/-- `ensureSessionUpToDate` (lines 384-386). -/
def ensureSessionUpToDate (st : ClientState) (now : Nat) (freshId : String) : ClientState :=
  markActivity st now freshId

/-- `track` (lines 178-195): consent is the very first check; then the
session-rotation probe, payload assembly, the plugin pipeline (a veto
returns early), the push, the size-triggered flush when the queue
reached `maxBatchSize`, and the timer arm.  `now` is the clock reading
and `freshId` the random id used if a rotation occurs. -/
def track (st : ClientState) (now : Nat) (freshId : String) (name : String) (props : Props) :
    ClientState :=
  if st.optedOut then st
  else
    let st1 := ensureSessionUpToDate st now freshId
    let ev := mkEvent st1 now name props
    match applyBeforeEnqueue st1.plugins ev with
    | none => st1
    | some processed =>
      let st2 := { st1 with queue := st1.queue ++ [processed] }
      let st3 := if st2.queue.length ≥ resolvedMaxBatch st2 then flush st2 else st2
      ensureFlushTimer st3

/-- `setSuperProperties` (lines 202-206): merge, later keys win. -/
def setSuperProperties (st : ClientState) (props : Props) : ClientState :=
  { st with superProps := st.superProps ++ props }

/-- `setUserProperties` (lines 208-212). -/
def setUserProperties (st : ClientState) (props : Props) : ClientState :=
  { st with userProps := st.userProps ++ props }

/-- `optOut` (lines 225-229): flips (and persists) the flag only. -/
def optOut (st : ClientState) : ClientState :=
  { st with optedOut := true }

/-- `optIn` (lines 231-235). -/
def optIn (st : ClientState) : ClientState :=
  { st with optedOut := false }

/-- `identify` (lines 197-200). -/
def identify (st : ClientState) (distinctId : String) : ClientState :=
  { st with distinctId := some distinctId }

/-- `registerPlugin` (lines 436-438). -/
def registerPlugin (st : ClientState) (p : MPlugin) : ClientState :=
  { st with plugins := st.plugins ++ [p] }

/-- The values the storage adapter can yield during `loadPersistence`
(lines 291-300); `none` stands for an absent key or malformed JSON,
which `safeParse` turns into `null`. -/
structure Persisted where
  distinct : Option String
  superProps : Option Props
  userProps : Option Props
  optedOut : Option Bool
  lastActivity : Option Nat

/-- The field-initializer state of a freshly allocated `MentiqClient`
(lines 126-147) after the config merge (lines 149-161): `queue = []`,
no timer, no plugins, consent defaults to opted-in, `lastActivityTs`
initialized to `Date.now()`, and — crucially — the `sessionId` field
not yet assigned (`none` models the pre-assignment `undefined`). -/
def initialState (cfg : MConfig) (now : Nat) (loc : Option String) : ClientState :=
  { config := cfg
    queue := []
    flushTimerArmed := false
    sessionId := none
    distinctId := none
    superProps := []
    userProps := []
    optedOut := false
    lastActivityTs := now
    plugins := []
    pending := []
    loc := loc
    hidden := false }

/-- `loadOrCreateSession` (lines 275-289): if session-scoped storage
holds an id, adopt it; otherwise mint `fresh`, persist it and emit
`session_start`.  In the source the emit happens inside the method,
before the constructor's `this.sessionId = this.loadOrCreateSession()`
assignment completes, so the synthesized event reads the field's
pre-assignment value. -/
def loadOrCreateSession (st : ClientState) (now : Nat) (existing : Option String)
    (fresh : String) : ClientState :=
  match existing with
  | some s => { st with sessionId := some s }
  | none =>
    let st1 := enqueueInternal st now "session_start" []
    { st1 with sessionId := some fresh }

/-- `loadPersistence` (lines 291-300): restore identity, property maps,
consent and the activity clock from durable storage; `Number(last) ||
Date.now()` falls back to `now` on `0` or absence. -/
def loadPersistence (st : ClientState) (now : Nat) (p : Persisted) : ClientState :=
  if st.config.enablePersistence then
    { st with
      distinctId := (match p.distinct with | some d => some d | none => st.distinctId)
      superProps := p.superProps.getD []
      userProps := p.userProps.getD []
      optedOut := (p.optedOut.getD false)
      lastActivityTs :=
        (match p.lastActivity with
         | some n => if n = 0 then now else n
         | none => now) }
  else st

/-- The constructor (lines 149-169) in source order: field initializers
and config merge, `loadOrCreateSession`, `loadPersistence`,
`captureContextSuperProps` (whose environment-derived result is the
`contextProps` parameter, installed through `setSuperProperties`), then
the automatic `page_view` track when `autoPageview` is set.  The DOM
listener installations register callbacks only and change no modelled
state.  `fresh1` is the random id minted for a missing session,
`fresh2` the one a rotation inside the `page_view` track would use. -/
def constructClient (cfg : MConfig) (now : Nat) (loc : Option String)
    (existingSession : Option String) (fresh1 fresh2 : String)
    (persisted : Persisted) (contextProps : Props) (pageProps : Props) : ClientState :=
  let st0 := initialState cfg now loc
  let st1 := loadOrCreateSession st0 now existingSession fresh1
  let st2 := loadPersistence st1 now persisted
  let st3 := setSuperProperties st2 contextProps
  if cfg.autoPageview then track st3 now fresh2 "page_view" pageProps else st3

/-! ## Helper lemmas -/

/-- Folding `getP`'s step over `b` from an arbitrary accumulator: the
last binding in `b` wins, and the accumulator survives when `b` has no
binding for the key. -/
theorem getP_foldl (b : Props) (acc : Option JVal) (k : String) :
    b.foldl (fun acc kv => if kv.1 = k then some kv.2 else acc) acc
      = match getP b k with
        | some v => some v
        | none => acc := by
  induction b generalizing acc with
  | nil => simp [getP]
  | cons kv t ih =>
    show t.foldl _ (if kv.1 = k then some kv.2 else acc) = _
    rw [ih]
    have ht : getP (kv :: t) k
        = match getP t k with
          | some v => some v
          | none => if kv.1 = k then some kv.2 else none := by
      show t.foldl _ (if kv.1 = k then some kv.2 else none) = _
      rw [ih]
    rw [ht]
    cases getP t k with
    | some v => rfl
    | none => by_cases h : kv.1 = k <;> simp [h]

/-- JS-object union: looking up in `a ++ b` prefers `b`'s bindings. -/
theorem getP_append (a b : Props) (k : String) :
    getP (a ++ b) k
      = match getP b k with
        | some v => some v
        | none => getP a k := by
  show (a ++ b).foldl _ none = _
  rw [List.foldl_append]
  exact getP_foldl b (getP a k) k

/-- The resolved batch size is never zero (`0` falls back to 20). -/
theorem one_le_resolvedMaxBatch (st : ClientState) : 1 ≤ resolvedMaxBatch st := by
  unfold resolvedMaxBatch
  split
  · decide
  · next h => exact Nat.one_le_iff_ne_zero.mpr h

/-- With no registered plugins the pipeline passes the event through. -/
theorem applyBeforeEnqueue_nil (ev : MEvent) : applyBeforeEnqueue [] ev = some ev := rfl

/-- `ensureFlushTimer` touches only the timer flag. -/
theorem ensureFlushTimer_queue (st : ClientState) : (ensureFlushTimer st).queue = st.queue := by
  unfold ensureFlushTimer; split <;> rfl

/-- `ensureFlushTimer` touches only the timer flag. -/
theorem ensureFlushTimer_pending (st : ClientState) :
    (ensureFlushTimer st).pending = st.pending := by
  unfold ensureFlushTimer; split <;> rfl

/-- `ensureFlushTimer` touches only the timer flag. -/
theorem ensureFlushTimer_plugins (st : ClientState) :
    (ensureFlushTimer st).plugins = st.plugins := by
  unfold ensureFlushTimer; split <;> rfl

/-- `ensureFlushTimer` always leaves the timer armed and everything
else unchanged (when it was armed already, arming is the identity). -/
theorem ensureFlushTimer_eq (st : ClientState) :
    ensureFlushTimer st = { st with flushTimerArmed := true } := by
  unfold ensureFlushTimer
  split
  · next h =>
    rw [← h]
  · rfl

/-- Without rotation the activity probe only refreshes the clock. -/
theorem markActivity_no_rotation (st : ClientState) (now : Nat) (fid : String)
    (h : now - st.lastActivityTs ≤ resolvedSessionTimeout st) :
    markActivity st now fid = { st with lastActivityTs := now } := by
  simp only [markActivity, gt_iff_lt]
  rw [if_neg (Nat.not_lt.mpr h)]

/-! ## Concrete states used by counterexamples and witnesses -/

/-- A client that opted out, with a short session timeout and a stale
activity clock, so that the next activity probe rotates the session. -/
def cxOptOutState : ClientState :=
  { initialState { DEFAULTS with sessionTimeoutMs := 10 } 0 none with
      sessionId := some "sOld", optedOut := true }

/-- A client configured without persistence and holding an accumulated
super-property. -/
def cxNoPersistState : ClientState :=
  { initialState { DEFAULTS with enablePersistence := false } 0 none with
      sessionId := some "s0", superProps := [("a", JVal.jnum 1)] }

/-- A client with `maxBatchSize = 1`, so every `track` size-triggers a
flush. -/
def cxOverlapState : ClientState :=
  { initialState { DEFAULTS with maxBatchSize := 1 } 0 none with sessionId := some "s0" }

/-- A plugin whose `afterFlush` hook throws (modelled by `false`). -/
def pThrow : MPlugin :=
  { name := "boom", beforeEnqueue := none, afterFlush := some (fun _ => false) }

/-- A plugin whose `afterFlush` hook returns normally. -/
def pObserver : MPlugin :=
  { name := "obs", beforeEnqueue := none, afterFlush := some (fun _ => true) }

/-- A client with a throwing plugin registered before an observing one. -/
def cxPluginState : ClientState :=
  { initialState DEFAULTS 0 none with sessionId := some "s0", plugins := [pThrow, pObserver] }

/-! ## Claim theorems -/

/-- C6 (code_bug): the spec claims every buffered event — including the
`session_start` synthesized at engine construction — carries a present
session id.  Constructing a client with empty session-scoped storage
enqueues `session_start` before the constructor's
`this.sessionId = this.loadOrCreateSession()` assignment completes, so
that event's `session_id` is the field's pre-assignment `undefined`,
while the very next automatic `page_view` already carries the fresh
id.  This contradicts the source's own `MentiqEvent` interface, which
declares `session_id : string` (non-optional). -/
theorem construction_session_start_missing_session_id :
    ((constructClient DEFAULTS 0 none none "s1" "s2"
        ⟨none, none, none, none, none⟩ [] []).queue.map
      (fun e => (e.event, e.session_id)))
      = [("session_start", none), ("page_view", some "s1")] := by
  rfl

/-- C8 (code_bug): the spec demands that an exception in one plugin's
`afterFlush` hook must not prevent the remaining plugins' hooks from
running.  The source dispatches hooks with a bare
`plugins.forEach(p => p.afterFlush?.(result))` and no per-hook
isolation, so a throwing first hook aborts the loop: with plugins
`[pThrow, pObserver]` only `"boom"` is invoked, on both the success and
the failure path; the buffer itself stays intact because the failure
path requeues before notifying. -/
theorem afterFlush_throw_skips_remaining_plugins :
    notifyAfterFlush [pThrow, pObserver] { ok := true, status := some 200, count := 1 }
      = ["boom"]
    ∧ (resolveFlush cxPluginState [] (.completed 200)).2.2 = ["boom"]
    ∧ (resolveFlush cxPluginState [] .transportFail).2.2 = ["boom"]
    ∧ (resolveFlush cxPluginState [] .transportFail).1.queue = [] ++ cxPluginState.queue := by
  exact ⟨rfl, rfl, rfl, rfl⟩

/-- C4 counterexample: the claim says automatic instrumentation is a
no-op under opt-out, but `markActivity` — the handler behind every
instrumented activity signal — never consults consent: with
`optedOut = true` an activity probe past the timeout still rotates the
session and pushes `session_end` / `session_start` into the buffer. -/
theorem optout_activity_probe_not_noop :
    cxOptOutState.optedOut = true
    ∧ (markActivity cxOptOutState 100 "sNew").queue.map (fun e => (e.event, e.session_id))
        = [("session_end", some "sOld"), ("session_start", some "sNew")] := by
  exact ⟨rfl, rfl⟩

/-- C4 amended: when `optedOut` is true, `track` is a no-op evaluated
as the very first check — it returns the state unchanged, so it has
zero side effects on session rotation, the buffer or context capture —
and `optOut` itself discards neither buffered nor in-flight events;
automatic activity instrumentation, however, is not consent-gated
(see the counterexample). -/
theorem optout_track_noop_buffer_kept :
    (∀ st : ClientState, ∀ now fid name props,
      st.optedOut = true → track st now fid name props = st)
    ∧ (∀ st : ClientState, (optOut st).queue = st.queue ∧ (optOut st).pending = st.pending) := by
  constructor
  · intro st now fid name props h
    simp [track, h]
  · intro st
    exact ⟨rfl, rfl⟩

/-- Witness for the amended C4 at a concrete opted-out client. -/
theorem optout_track_noop_buffer_kept_witness :
    track cxOptOutState 100 "sNew" "x" [] = cxOptOutState
    ∧ (optOut cxOptOutState).queue = cxOptOutState.queue := by
  exact ⟨optout_track_noop_buffer_kept.1 cxOptOutState 100 "sNew" "x" [] rfl,
    (optout_track_noop_buffer_kept.2 cxOptOutState).1⟩

/-- C7 counterexample: with `enablePersistence = false` the payload
assembly spreads an empty object instead of the super-properties, so a
buffered event's properties are not the union the claim demands: the
accumulated super-property `a` is absent from the tracked event while
the call-site property `b` is present. -/
theorem properties_union_fails_without_persistence :
    getP cxNoPersistState.superProps "a" = some (JVal.jnum 1)
    ∧ (track cxNoPersistState 0 "f" "e" [("b", JVal.jnum 2)]).queue.map
        (fun e => (getP e.properties "a", getP e.properties "b"))
        = [(none, some (JVal.jnum 2))] := by
  exact ⟨rfl, rfl⟩

/-- A client with a short session timeout and a stale activity clock
(and consent given), poised for a rotation at the next probe. -/
def rotState : ClientState :=
  { initialState { DEFAULTS with sessionTimeoutMs := 10 } 0 none with sessionId := some "sOld" }

/-- With no plugins, `enqueueInternal` pushes the assembled event and
arms the timer. -/
theorem enqueueInternal_nil (st : ClientState) (now : Nat) (name : String) (props : Props)
    (hpl : st.plugins = []) :
    enqueueInternal st now name props
      = { st with
          queue := st.queue ++ [mkEvent st now name props]
          flushTimerArmed := true } := by
  simp only [enqueueInternal, hpl, applyBeforeEnqueue_nil]
  rw [ensureFlushTimer_eq]

/-- The rotation branch of `markActivity` with no registered plugins:
`session_end` is pushed under the old id, the fresh id installed,
`session_start` pushed under the new id, the timer armed and the
activity clock refreshed. -/
theorem markActivity_rotation (st : ClientState) (now : Nat) (fid : String)
    (hpl : st.plugins = [])
    (hrot : resolvedSessionTimeout st < now - st.lastActivityTs) :
    markActivity st now fid
      = { st with
          queue := st.queue
            ++ [mkEvent st now "session_end" [("inactive_ms", JVal.jnum (now - st.lastActivityTs))],
                mkEvent { st with sessionId := some fid } now "session_start" []]
          flushTimerArmed := true
          sessionId := some fid
          lastActivityTs := now } := by
  simp only [markActivity, gt_iff_lt, if_pos hrot]
  rw [enqueueInternal_nil st now _ _ hpl]
  rw [enqueueInternal_nil _ now _ _ (by simp [hpl])]
  simp [mkEvent]

/-- C5 (confirmed): when the gap between two consecutive activity
probes exceeds the session timeout, the probe synthesizes
`session_end` still stamped with the old session id and carrying an
`inactive_ms` of at least the timeout, then installs the fresh id,
then synthesizes `session_start` under the new id, then sets
`lastActivityAt` to now — and every event assembled afterwards is
stamped with the new id.  (Stated with no registered plugins, so the
synthesized events reach the buffer unmodified.) -/
theorem session_rotation_emits_end_start
    (st : ClientState) (now : Nat) (fid : String)
    (hpl : st.plugins = [])
    (hrot : resolvedSessionTimeout st < now - st.lastActivityTs) :
    (markActivity st now fid).queue
        = st.queue
          ++ [mkEvent st now "session_end" [("inactive_ms", JVal.jnum (now - st.lastActivityTs))],
              mkEvent { st with sessionId := some fid } now "session_start" []]
    ∧ (markActivity st now fid).sessionId = some fid
    ∧ (markActivity st now fid).lastActivityTs = now
    ∧ (mkEvent st now "session_end"
        [("inactive_ms", JVal.jnum (now - st.lastActivityTs))]).session_id = st.sessionId
    ∧ (mkEvent { st with sessionId := some fid } now "session_start" []).session_id = some fid
    ∧ getP (mkEvent st now "session_end"
        [("inactive_ms", JVal.jnum (now - st.lastActivityTs))]).properties "inactive_ms"
        = some (JVal.jnum (now - st.lastActivityTs))
    ∧ resolvedSessionTimeout st ≤ now - st.lastActivityTs
    ∧ (∀ now2 n p, (mkEvent (markActivity st now fid) now2 n p).session_id = some fid) := by
  have hM := markActivity_rotation st now fid hpl hrot
  refine ⟨by rw [hM], by rw [hM], by rw [hM], rfl, rfl, ?_, Nat.le_of_lt hrot, ?_⟩
  · simp only [mkEvent, getP_append]
    rfl
  · intro now2 n p
    simp only [mkEvent]
    rw [hM]

/-- Witness for C5 at a concrete rotation. -/
theorem session_rotation_emits_end_start_witness :
    (markActivity rotState 100 "sNew").sessionId = some "sNew"
    ∧ (markActivity rotState 100 "sNew").queue.map (fun e => (e.event, e.session_id))
        = [("session_end", some "sOld"), ("session_start", some "sNew")]
    ∧ (markActivity rotState 100 "sNew").lastActivityTs = 100 := by
  have h := session_rotation_emits_end_start rotState 100 "sNew" rfl (by decide)
  refine ⟨h.2.1, ?_, h.2.2.1⟩
  rw [h.1]
  rfl

/-- Plugins whose `afterFlush` hooks all return normally. -/
def WellBehaved (ps : List MPlugin) : Prop :=
  ∀ p ∈ ps, ∀ f, p.afterFlush = some f → ∀ r, f r = true

/-- The names of the plugins that registered an `afterFlush` hook, in
registration order. -/
def hookNames (ps : List MPlugin) : List String :=
  (ps.filter fun p => p.afterFlush.isSome).map MPlugin.name

/-- When no hook throws, the `forEach` dispatch reaches every
registered hook in registration order. -/
theorem notifyAfterFlush_wellBehaved (ps : List MPlugin) (h : WellBehaved ps)
    (r : FlushResult) : notifyAfterFlush ps r = hookNames ps := by
  induction ps with
  | nil => rfl
  | cons p t ih =>
    have hp := h p (List.mem_cons_self p t)
    have ht : WellBehaved t := fun q hq => h q (List.mem_cons_of_mem p hq)
    cases hf : p.afterFlush with
    | none =>
      simp [notifyAfterFlush, hookNames, List.filter_cons, hf, ih ht]
    | some hook =>
      simp [notifyAfterFlush, hookNames, List.filter_cons, hf, hp hook hf r, ih ht]

/-- C3 (confirmed): when the delivery attempt for a batch resolves,
the `.then` handler (any HTTP status, 2xx or not) leaves the buffer
alone — the batch is discarded — and reports
`\x7bok := true, status, count\x7d` to the plugins, while the `.catch`
handler (transport-level failure) splices the whole batch back at the
head of the buffer and reports `\x7bok := false, count\x7d`; both
handlers are total functions of the state — no error propagates to the
caller of `track`.  (Plugin notification stated for hooks that do not
throw; see C8 for throwing hooks.) -/
theorem delivery_outcome_handling
    (st : ClientState) (batch : List MEvent) (status : Nat)
    (hwb : WellBehaved st.plugins) :
    (resolveFlush st batch (.completed status)).1
        = { st with pending := st.pending.erase batch }
    ∧ (resolveFlush st batch (.completed status)).2.1
        = { ok := true, status := some status, count := batch.length }
    ∧ (resolveFlush st batch (.completed status)).2.2 = hookNames st.plugins
    ∧ (resolveFlush st batch .transportFail).1
        = { st with pending := st.pending.erase batch, queue := batch ++ st.queue }
    ∧ (resolveFlush st batch .transportFail).2.1
        = { ok := false, status := none, count := batch.length }
    ∧ (resolveFlush st batch .transportFail).2.2 = hookNames st.plugins := by
  exact ⟨rfl, rfl, notifyAfterFlush_wellBehaved _ hwb _, rfl, rfl,
    notifyAfterFlush_wellBehaved _ hwb _⟩

/-- A client with one well-behaved observing plugin. -/
def obsState : ClientState :=
  { initialState DEFAULTS 0 none with sessionId := some "s0", plugins := [pObserver] }

/-- Witness for C3 at a concrete resolution. -/
theorem delivery_outcome_handling_witness :
    (resolveFlush obsState [] (.completed 204)).2.1
        = { ok := true, status := some 204, count := 0 }
    ∧ (resolveFlush obsState [] .transportFail).2.2 = ["obs"]
    ∧ (resolveFlush obsState [] .transportFail).1.queue = [] ++ obsState.queue := by
  have hwb : WellBehaved obsState.plugins := by
    intro p hp f hf r
    simp only [obsState, List.mem_singleton] at hp
    subst hp
    simp only [pObserver] at hf
    cases hf
    rfl
  have h := delivery_outcome_handling obsState [] 204 hwb
  refine ⟨h.2.1, ?_, by rw [h.2.2.2.1]⟩
  rw [h.2.2.2.2.2]
  rfl

/-- `mkEvent` does not read the activity clock. -/
theorem mkEvent_set_lastActivity (st : ClientState) (now' now : Nat) (name : String)
    (props : Props) :
    mkEvent { st with lastActivityTs := now' } now name props = mkEvent st now name props := rfl

/-- One `track` call with consent given, no plugins and no rotation
due: refresh the clock, append the assembled event to the tail, flush
when the buffer reached `maxBatchSize`, arm the timer. -/
theorem track_nil_step (st : ClientState) (now : Nat) (fid name : String) (props : Props)
    (hopt : st.optedOut = false) (hpl : st.plugins = [])
    (hact : now - st.lastActivityTs ≤ resolvedSessionTimeout st) :
    track st now fid name props
      = ensureFlushTimer
          (if resolvedMaxBatch st ≤ st.queue.length + 1
           then flush { st with
                  lastActivityTs := now
                  queue := st.queue ++ [mkEvent st now name props] }
           else { st with
                  lastActivityTs := now
                  queue := st.queue ++ [mkEvent st now name props] }) := by
  simp only [track, hopt, Bool.false_eq_true, if_false, ensureSessionUpToDate]
  rw [markActivity_no_rotation st now fid hact]
  simp [mkEvent, hpl, applyBeforeEnqueue_nil, resolvedMaxBatch, hopt]

/-- C1 (confirmed): `track` appends the stamped event to the tail of
the buffer and triggers an immediate flush exactly when the buffer
length reaches at least `maxBatchSize` (the flush cuts the first
`maxBatchSize` events into an in-flight attempt); and in the concrete
scenario — `maxBatchSize = 2`, an idle flush timer, empty buffer —
`track "a"` then `track "b"` cause exactly one flush, whose batch is
the two stamped events in order, leaving the buffer empty.  (Stated
with consent given, no plugins, the page visible, and no session
rotation due.) -/
theorem track_appends_and_flushes_at_maxBatchSize :
    (∀ st : ClientState, ∀ now fid name props,
      st.optedOut = false → st.plugins = [] → st.hidden = false →
      now - st.lastActivityTs ≤ resolvedSessionTimeout st →
      (track st now fid name props).queue
          = (if resolvedMaxBatch st ≤ st.queue.length + 1
             then (st.queue ++ [mkEvent st now name props]).drop (resolvedMaxBatch st)
             else st.queue ++ [mkEvent st now name props])
        ∧ (track st now fid name props).pending
          = st.pending ++
            (if resolvedMaxBatch st ≤ st.queue.length + 1
             then [(st.queue ++ [mkEvent st now name props]).take (resolvedMaxBatch st)]
             else []))
    ∧ (∀ st : ClientState, ∀ now1 now2 : Nat, ∀ f1 f2 : String, ∀ pa pb : Props,
      st.optedOut = false → st.plugins = [] → st.hidden = false → st.queue = [] →
      resolvedMaxBatch st = 2 →
      now1 - st.lastActivityTs ≤ resolvedSessionTimeout st →
      now2 - now1 ≤ resolvedSessionTimeout st →
      (track st now1 f1 "a" pa).queue = [mkEvent st now1 "a" pa]
      ∧ (track st now1 f1 "a" pa).pending = st.pending
      ∧ (track (track st now1 f1 "a" pa) now2 f2 "b" pb).queue = []
      ∧ (track (track st now1 f1 "a" pa) now2 f2 "b" pb).pending
          = st.pending ++ [[mkEvent st now1 "a" pa, mkEvent st now2 "b" pb]]) := by
  have key : ∀ st : ClientState, ∀ now fid name props,
      st.optedOut = false → st.plugins = [] → st.hidden = false →
      now - st.lastActivityTs ≤ resolvedSessionTimeout st →
      (track st now fid name props).queue
          = (if resolvedMaxBatch st ≤ st.queue.length + 1
             then (st.queue ++ [mkEvent st now name props]).drop (resolvedMaxBatch st)
             else st.queue ++ [mkEvent st now name props])
        ∧ (track st now fid name props).pending
          = st.pending ++
            (if resolvedMaxBatch st ≤ st.queue.length + 1
             then [(st.queue ++ [mkEvent st now name props]).take (resolvedMaxBatch st)]
             else []) := by
    intro st now fid name props hopt hpl hhid hact
    rw [track_nil_step st now fid name props hopt hpl hact]
    by_cases hc : resolvedMaxBatch st ≤ st.queue.length + 1
    · rw [if_pos hc, if_pos hc, if_pos hc]
      rw [ensureFlushTimer_queue, ensureFlushTimer_pending]
      unfold flush
      rw [if_neg (by simp), if_neg (by simpa using hhid)]
      constructor
      · simp [resolvedMaxBatch]
      · simp [resolvedMaxBatch]
    · rw [if_neg hc, if_neg hc, if_neg hc]
      rw [ensureFlushTimer_queue, ensureFlushTimer_pending]
      exact ⟨rfl, by simp⟩
  refine ⟨key, ?_⟩
  intro st now1 now2 f1 f2 pa pb hopt hpl hhid hq hk hact1 hact2
  have h1 := track_nil_step st now1 f1 "a" pa hopt hpl hact1
  rw [if_neg (by rw [hk, hq]; simp)] at h1
  rw [ensureFlushTimer_eq] at h1
  simp only [hq, hopt, hpl, List.nil_append] at h1
  have h2 := track_nil_step (track st now1 f1 "a" pa) now2 f2 "b" pb
      (by rw [h1]) (by rw [h1]) (by rw [h1]; exact hact2)
  rw [h1] at h2
  simp only [resolvedMaxBatch] at hk h2
  rw [hk] at h2
  simp only [List.length_cons, List.length_nil, Nat.zero_add, List.nil_append] at h2
  rw [if_pos (by omega)] at h2
  have check2 : track (track st now1 f1 "a" pa) now2 f2 "b" pb
      = ensureFlushTimer (flush
          { config := st.config
            queue := [mkEvent st now1 "a" pa, mkEvent st now2 "b" pb]
            flushTimerArmed := true
            sessionId := st.sessionId
            distinctId := st.distinctId
            superProps := st.superProps
            userProps := st.userProps
            optedOut := false
            lastActivityTs := now2
            plugins := []
            pending := st.pending
            loc := st.loc
            hidden := st.hidden }) := by
    rw [h1, h2]
    rfl
  refine ⟨by rw [h1], by rw [h1], ?_, ?_⟩
  · rw [check2, ensureFlushTimer_queue]
    simp only [flush]
    rw [if_neg (by simp)]
    rw [if_neg (by simpa using hhid)]
    simp only [resolvedMaxBatch]
    rw [hk]
    rfl
  · rw [check2, ensureFlushTimer_pending]
    simp only [flush]
    rw [if_neg (by simp)]
    rw [if_neg (by simpa using hhid)]
    simp only [resolvedMaxBatch]
    rw [hk]
    rfl

/-- `flush` never changes the configuration. -/
theorem flush_config (st : ClientState) : (flush st).config = st.config := by
  simp only [flush]
  split
  · rfl
  · split <;> rfl

/-- `flush` never changes the visibility snapshot. -/
theorem flush_hidden (st : ClientState) : (flush st).hidden = st.hidden := by
  simp only [flush]
  split
  · rfl
  · split <;> rfl

/-- On a nonempty queue with the page visible, `flush` cuts the head
batch into a new in-flight attempt. -/
theorem flush_fetch (st : ClientState) (hq : st.queue ≠ []) (hh : st.hidden = false) :
    flush st = { st with
      queue := st.queue.drop (resolvedMaxBatch st)
      pending := st.pending ++ [st.queue.take (resolvedMaxBatch st)] } := by
  simp only [flush]
  rw [if_neg (by simpa [List.length_eq_zero] using hq)]
  rw [if_neg (by simp [hh])]

/-- The spec's scenario client: `maxBatchSize = 2`, a very large flush
interval, an empty buffer. -/
def scnState : ClientState :=
  { initialState { DEFAULTS with maxBatchSize := 2, flushIntervalMs := 100000 } 0 none with
      sessionId := some "s0" }

/-- Witness for C1 on the spec's concrete scenario. -/
theorem track_appends_and_flushes_at_maxBatchSize_witness :
    (track (track scnState 0 "x" "a" []) 0 "y" "b" []).queue = []
    ∧ (track (track scnState 0 "x" "a" []) 0 "y" "b" []).pending
        = [[mkEvent scnState 0 "a" [], mkEvent scnState 0 "b" []]] := by
  have h := track_appends_and_flushes_at_maxBatchSize.2 scnState 0 0 "x" "y" [] []
      rfl rfl rfl rfl (by decide) (by decide) (by decide)
  exact ⟨h.2.2.1, by rw [h.2.2.2]; rfl⟩

/-- C2 (confirmed): when the delivery of batch `B` (cut from the head
of the buffer) fails at the transport level, `B` is spliced back at
the head in its internal order, ahead of everything enqueued after the
cut (`mid` while the attempt was in flight, `post` after it resolved);
the next flush's outbound batch is then a prefix of
`B ++ (events enqueued after the failed attempt)`: either the cut left
no remainder behind `B`, or `B` already fills a whole batch. -/
theorem requeue_order_next_batch
    (st : ClientState) (mid post : List MEvent)
    (hq : st.queue ≠ []) (hh : st.hidden = false) :
    let k := resolvedMaxBatch st
    let batch := st.queue.take k
    let stMid := { flush st with queue := (flush st).queue ++ mid }
    let stReq := (resolveFlush stMid batch .transportFail).1
    let stPost := { stReq with queue := stReq.queue ++ post }
    stReq.queue = batch ++ (st.queue.drop k ++ mid)
    ∧ (flush stPost).pending = stPost.pending ++ [stPost.queue.take k]
    ∧ stPost.queue.take k <+: batch ++ (mid ++ post) := by
  intro k batch stMid stReq stPost
  have hk1 : 1 ≤ k := one_le_resolvedMaxBatch st
  have hbatchne : batch ≠ [] := by
    intro habs
    rcases List.take_eq_nil_iff.mp habs with h0 | h0
    · omega
    · exact hq h0
  have hflush : (flush st).queue = st.queue.drop k := by
    rw [flush_fetch st hq hh]
  have hreq : stReq.queue = batch ++ (st.queue.drop k ++ mid) := by
    show batch ++ stMid.queue = _
    rw [show stMid.queue = (flush st).queue ++ mid from rfl, hflush]
  have hpostq : stPost.queue = (batch ++ (st.queue.drop k ++ mid)) ++ post := by
    show stReq.queue ++ post = _
    rw [hreq]
  have hcfg : stPost.config = st.config := by
    show (flush st).config = st.config
    exact flush_config st
  have hkeep : resolvedMaxBatch stPost = k := by
    unfold resolvedMaxBatch
    rw [hcfg]
    rfl
  have hhid2 : stPost.hidden = false := by
    show (flush st).hidden = false
    rw [flush_hidden]
    exact hh
  have hpostne : stPost.queue ≠ [] := by
    rw [hpostq]
    simp [hbatchne]
  refine ⟨hreq, ?_, ?_⟩
  · rw [flush_fetch stPost hpostne hhid2, hkeep]
  · rw [hpostq]
    by_cases hrest : st.queue.drop k = []
    · rw [hrest]
      simp only [List.nil_append]
      rw [← List.append_assoc]
      exact ⟨((batch ++ mid) ++ post).drop k, List.take_append_drop k _⟩
    · have hlen : k < st.queue.length := by
        by_contra hle
        exact hrest (List.drop_eq_nil_of_le (by omega))
      have hblen : batch.length = k := by
        simpa [batch] using Nat.min_eq_left (Nat.le_of_lt hlen)
      rw [List.append_assoc, List.take_append_of_le_length (le_of_eq hblen.symm)]
      rw [List.take_of_length_le (le_of_eq hblen)]
      exact ⟨mid ++ post, rfl⟩

/-- A ready-made event for the requeue witness. -/
def reqEvent : MEvent :=
  { event := "a"
    distinct_id := none
    session_id := some "s0"
    timestamp := 0
    url := none
    properties := [] }

/-- A client holding one buffered event, about to flush. -/
def reqState : ClientState :=
  { initialState DEFAULTS 0 none with sessionId := some "s0", queue := [reqEvent] }

/-- Witness for C2: a one-event batch fails and is found spliced back
at the head of the buffer. -/
theorem requeue_order_next_batch_witness :
    reqState.queue ≠ []
    ∧ (resolveFlush { flush reqState with queue := (flush reqState).queue ++ [] }
        (reqState.queue.take (resolvedMaxBatch reqState)) .transportFail).1.queue
        = reqState.queue.take (resolvedMaxBatch reqState)
          ++ (reqState.queue.drop (resolvedMaxBatch reqState) ++ []) := by
  refine ⟨by simp [reqState], ?_⟩
  exact (requeue_order_next_batch reqState [] [] (by simp [reqState]) rfl).1

/-- C10 (confirmed): internally synthesized events take the same
`applyBeforeEnqueue` pipeline as `track` events: `enqueueInternal`
buffers exactly the pipeline's output; if every plugin outcome is a
veto the session-boundary events of a rotation are suppressed from the
buffer entirely; a mutating pipeline's transformation is applied to
`session_end` and `session_start` before they are buffered; and a veto
suppresses a `track` event in exactly the same way. -/
theorem internal_events_through_plugin_pipeline :
    (∀ st : ClientState, ∀ now name props,
      (enqueueInternal st now name props).queue
        = (match applyBeforeEnqueue st.plugins (mkEvent st now name props) with
           | none => st.queue
           | some e => st.queue ++ [e]))
    ∧ (∀ st : ClientState, ∀ now fid,
      resolvedSessionTimeout st < now - st.lastActivityTs →
      (∀ e, applyBeforeEnqueue st.plugins e = none) →
      (markActivity st now fid).queue = st.queue)
    ∧ (∀ st : ClientState, ∀ now fid, ∀ g : MEvent → MEvent,
      resolvedSessionTimeout st < now - st.lastActivityTs →
      (∀ e, applyBeforeEnqueue st.plugins e = some (g e)) →
      (markActivity st now fid).queue
        = st.queue
          ++ [g (mkEvent st now "session_end"
                [("inactive_ms", JVal.jnum (now - st.lastActivityTs))]),
              g (mkEvent { st with sessionId := some fid } now "session_start" [])])
    ∧ (∀ st : ClientState, ∀ now fid name props,
      st.optedOut = false →
      now - st.lastActivityTs ≤ resolvedSessionTimeout st →
      applyBeforeEnqueue st.plugins (mkEvent st now name props) = none →
      (track st now fid name props).queue = st.queue) := by
  refine ⟨?_, ?_, ?_, ?_⟩
  · intro st now name props
    simp only [enqueueInternal]
    cases h : applyBeforeEnqueue st.plugins (mkEvent st now name props) with
    | none => rw [ensureFlushTimer_queue]
    | some e => rw [ensureFlushTimer_queue]
  · intro st now fid hrot hveto
    simp [markActivity, gt_iff_lt, if_pos hrot, enqueueInternal, ensureFlushTimer_queue,
      ensureFlushTimer_plugins, hveto]
  · intro st now fid g hrot hmut
    simp [markActivity, gt_iff_lt, if_pos hrot, enqueueInternal, ensureFlushTimer_eq,
      hmut, mkEvent]
  · intro st now fid name props hopt hact hveto
    simp only [track, hopt, Bool.false_eq_true, if_false, ensureSessionUpToDate]
    rw [markActivity_no_rotation st now fid hact]
    simp only [mkEvent_set_lastActivity]
    rw [show ({ st with lastActivityTs := now } : ClientState).plugins = st.plugins from rfl,
      hveto]

/-- A plugin that vetoes every event. -/
def pVeto : MPlugin :=
  { name := "veto", beforeEnqueue := some (fun _ => none), afterFlush := none }

/-- A plugin that rewrites the event name before buffering. -/
def pTag : MPlugin :=
  { name := "tag"
    beforeEnqueue := some (fun e => some { e with event := e.event ++ "!" })
    afterFlush := none }

/-- A rotation-ready client with only the vetoing plugin. -/
def vetoState : ClientState :=
  { initialState { DEFAULTS with sessionTimeoutMs := 10 } 0 none with
      sessionId := some "s0", plugins := [pVeto] }

/-- A rotation-ready client with only the tagging plugin. -/
def tagState : ClientState :=
  { initialState { DEFAULTS with sessionTimeoutMs := 10 } 0 none with
      sessionId := some "s0", plugins := [pTag] }

/-- Witness for C10: the vetoing plugin keeps a rotation's
session-boundary events (and a tracked event) out of the buffer, while
the tagging plugin's mutation is visible on the buffered
session-boundary events. -/
theorem internal_events_through_plugin_pipeline_witness :
    (markActivity vetoState 100 "sN").queue = []
    ∧ (track vetoState 5 "f" "x" []).queue = []
    ∧ (markActivity tagState 100 "sN").queue.map MEvent.event
        = ["session_end!", "session_start!"] := by
  have h := internal_events_through_plugin_pipeline
  refine ⟨?_, ?_, ?_⟩
  · rw [h.2.1 vetoState 100 "sN" (by decide) (fun e => rfl)]
    rfl
  · rw [h.2.2.2 vetoState 5 "f" "x" [] rfl (by decide) rfl]
    rfl
  · rw [h.2.2.1 tagState 100 "sN" (fun e => { e with event := e.event ++ "!" })
      (by decide) (fun e => rfl)]
    rfl

/-- C7 amended: with persistence enabled (the default), every event
`track` enqueues carries exactly the union of the accumulated
super-properties and the call-site properties, call-site values
winning on key collision; successive `setSuperProperties` calls merge,
so earlier keys survive later updates.  (With persistence disabled the
super-properties are omitted from events — see the counterexample.) -/
theorem properties_union_with_persistence
    (st : ClientState) (now : Nat) (fid name : String) (props : Props)
    (hp : st.config.enablePersistence = true)
    (hopt : st.optedOut = false) (hpl : st.plugins = [])
    (hact : now - st.lastActivityTs ≤ resolvedSessionTimeout st)
    (hsize : st.queue.length + 1 < resolvedMaxBatch st) :
    (track st now fid name props).queue = st.queue ++ [mkEvent st now name props]
    ∧ (∀ k, getP (mkEvent st now name props).properties k
        = match getP props k with
          | some v => some v
          | none => getP st.superProps k)
    ∧ (∀ p1 p2, (setSuperProperties (setSuperProperties st p1) p2).superProps
        = st.superProps ++ p1 ++ p2) := by
  refine ⟨?_, ?_, fun p1 p2 => rfl⟩
  · rw [track_nil_step st now fid name props hopt hpl hact]
    rw [if_neg (by omega)]
    rw [ensureFlushTimer_queue]
  · intro k
    simp only [mkEvent, hp, if_true, getP_append]

/-- A client holding one accumulated super-property, persistence on. -/
def unionState : ClientState :=
  { initialState DEFAULTS 0 none with
      sessionId := some "s0", superProps := [("a", JVal.jnum 1)] }

/-- Witness for the amended C7: super-property `a` and call-site
property `b` are both on the buffered event, and the call-site side
wins where they collide. -/
theorem properties_union_with_persistence_witness :
    getP (mkEvent unionState 0 "e" [("b", JVal.jnum 2)]).properties "a"
        = some (JVal.jnum 1)
    ∧ getP (mkEvent unionState 0 "e" [("b", JVal.jnum 2)]).properties "b"
        = some (JVal.jnum 2)
    ∧ getP (mkEvent unionState 0 "e" [("a", JVal.jnum 7)]).properties "a"
        = some (JVal.jnum 7)
    ∧ (track unionState 0 "f" "e" [("b", JVal.jnum 2)]).queue
        = [mkEvent unionState 0 "e" [("b", JVal.jnum 2)]] := by
  have h1 := properties_union_with_persistence unionState 0 "f" "e" [("b", JVal.jnum 2)]
      rfl rfl rfl (by decide) (by decide)
  have h2 := properties_union_with_persistence unionState 0 "f" "e" [("a", JVal.jnum 7)]
      rfl rfl rfl (by decide) (by decide)
  refine ⟨?_, ?_, ?_, ?_⟩
  · rw [h1.2.1 "a"]
    rfl
  · rw [h1.2.1 "b"]
    rfl
  · rw [h2.2.1 "a"]
    rfl
  · rw [h1.1]
    rfl

/-- C9 counterexample: two delivery attempts outstanding at once.
With `maxBatchSize = 1`, the first `track` size-triggers a flush whose
`fetch` is in flight; the second `track` arrives before it resolves
and size-triggers another flush immediately — the timer is not
involved and nothing waits for the first attempt to resolve, so two
attempts (batches `["a"]` and `["b"]`) are outstanding together. -/
theorem two_flushes_outstanding :
    (track (track cxOverlapState 0 "x" "a" []) 0 "y" "b" []).pending.length = 2
    ∧ (track (track cxOverlapState 0 "x" "a" []) 0 "y" "b" []).pending.map
        (fun b => b.map MEvent.event) = [["a"], ["b"]] := by
  exact ⟨rfl, rfl⟩

/-- Abstraction of `ClientState` for the in-flight analysis: each
enqueued event is named by its enqueue sequence number (`ctr`), and
only the buffer/in-flight structure is kept.  `k` is the resolved
batch size.  The transitions below mirror, on this skeleton, exactly
the queue/pending arithmetic of `track` (push then size-triggered
cut), the timer `flush`, and `resolveFlush`. -/
structure FlightState where
  k : Nat
  queue : List Nat
  pending : List (List Nat)
  ctr : Nat

/-- `track`'s buffer effect: push a fresh event at the tail, then cut
the head batch into a new in-flight attempt when the buffer reached
`k` (src/index.ts lines 191-194 and 237-255). -/
def enqStep (s : FlightState) : FlightState :=
  let q := s.queue ++ [s.ctr]
  if s.k ≤ q.length then
    { k := s.k, queue := q.drop s.k, pending := s.pending ++ [q.take s.k], ctr := s.ctr + 1 }
  else
    { k := s.k, queue := q, pending := s.pending, ctr := s.ctr + 1 }

/-- A timer or explicit `flush()` call: cut the head batch into a new
in-flight attempt unless the buffer is empty (lines 237-255). -/
def timerStep (s : FlightState) : FlightState :=
  if s.queue.length = 0 then s
  else
    { k := s.k, queue := s.queue.drop s.k
      pending := s.pending ++ [s.queue.take s.k], ctr := s.ctr }

/-- Resolution of in-flight attempt `i` (lines 256-263): on success
the batch is dropped, on transport failure it is spliced back at the
head of the buffer; either way the attempt is no longer outstanding. -/
def resolveStep (s : FlightState) (i : Nat) (ok : Bool) : FlightState :=
  match s.pending.get? i with
  | none => s
  | some batch =>
    if ok then
      { k := s.k, queue := s.queue, pending := s.pending.eraseIdx i, ctr := s.ctr }
    else
      { k := s.k, queue := batch ++ s.queue, pending := s.pending.eraseIdx i, ctr := s.ctr }

/-- One step of the engine's buffer/delivery machine. -/
inductive FlightStep : FlightState → FlightState → Prop where
  | enq : ∀ s, FlightStep s (enqStep s)
  | timer : ∀ s, FlightStep s (timerStep s)
  | resolve : ∀ s i ok, FlightStep s (resolveStep s i ok)

/-- Reachability by finitely many steps. -/
inductive FlightReach : FlightState → FlightState → Prop where
  | refl : ∀ s, FlightReach s s
  | tail : ∀ {s t u}, FlightReach s t → FlightStep t u → FlightReach s u

/-- A freshly constructed engine: empty buffer, nothing in flight. -/
def flightInit (k : Nat) : FlightState :=
  { k := k, queue := [], pending := [], ctr := 0 }

/-- The in-flight invariant: no event instance occurs twice across the
buffer and the outstanding batches, and all ids were issued. -/
def FlightInv (s : FlightState) : Prop :=
  (s.queue ++ s.pending.flatten).Nodup
  ∧ ∀ x ∈ s.queue ++ s.pending.flatten, x < s.ctr

/-- A list is a permutation of any of its members consed onto the
remainder after removing that member's position. -/
theorem get_eraseIdx_perm {α : Type} :
    ∀ (l : List α) (i : Nat) (b : α), l.get? i = some b →
      l.Perm (b :: l.eraseIdx i) := by
  intro l
  induction l with
  | nil => intro i b h; simp at h
  | cons hd tl ih =>
    intro i b h
    match i with
    | 0 =>
      rw [List.get?_cons_zero, Option.some_inj] at h
      subst h
      simp [List.eraseIdx]
    | Nat.succ i' =>
      rw [List.get?_cons_succ] at h
      have hp := ih i' b h
      have hstep : (hd :: tl).Perm (hd :: (b :: tl.eraseIdx i')) := hp.cons hd
      exact hstep.trans (List.Perm.swap b hd _)

/-- Components at distinct positions of a list of lists with
duplicate-free flattening are pairwise disjoint. -/
theorem flatten_nodup_disjoint {α : Type} :
    ∀ (l : List (List α)), l.flatten.Nodup →
      ∀ i j b c, i ≠ j → l.get? i = some b → l.get? j = some c →
        ∀ x ∈ b, x ∉ c := by
  intro l
  induction l with
  | nil => intro h i j b c hij hb hc; simp at hb
  | cons hd tl ih =>
    intro h i j b c hij hb hc x hxb hxc
    rw [List.flatten_cons] at h
    have hdisj : hd.Disjoint tl.flatten := List.disjoint_of_nodup_append h
    match i, j with
    | 0, 0 => exact hij rfl
    | 0, Nat.succ j' =>
      rw [List.get?_cons_zero, Option.some_inj] at hb
      rw [List.get?_cons_succ] at hc
      subst hb
      exact hdisj hxb (List.mem_flatten.mpr ⟨c, List.get?_mem hc, hxc⟩)
    | Nat.succ i', 0 =>
      rw [List.get?_cons_zero, Option.some_inj] at hc
      rw [List.get?_cons_succ] at hb
      subst hc
      exact hdisj hxc (List.mem_flatten.mpr ⟨b, List.get?_mem hb, hxb⟩)
    | Nat.succ i', Nat.succ j' =>
      exact ih h.of_append_right i' j' b c
        (fun hh => hij (congrArg Nat.succ hh)) hb hc x hxb hxc

/-- Cutting the head `k` events of `q` into a fresh attempt permutes
the combined buffer-and-in-flight contents. -/
theorem cut_contents_perm (q : List Nat) (p : List (List Nat)) (k : Nat) :
    (q.drop k ++ (p ++ [q.take k]).flatten).Perm (q ++ p.flatten) := by
  rw [List.flatten_append]
  simp only [List.flatten_cons, List.flatten_nil, List.append_nil]
  conv_rhs => rw [← List.take_append_drop k q]
  rw [List.append_assoc]
  exact (List.Perm.append_left _ List.perm_append_comm).trans
    (List.perm_append_comm_assoc _ _ _)

/-- The freshly constructed engine satisfies the in-flight invariant. -/
theorem flightInv_init (k : Nat) : FlightInv (flightInit k) := by
  constructor
  · exact List.nodup_nil
  · intro x hx
    simp [flightInit] at hx

/-- Every step of the buffer/delivery machine preserves the in-flight
invariant. -/
theorem flightInv_step {s t : FlightState} (hs : FlightInv s) (h : FlightStep s t) :
    FlightInv t := by
  obtain ⟨hnd, hbd⟩ := hs
  cases h with
  | enq =>
    have hperm0 : ((s.queue ++ [s.ctr]) ++ s.pending.flatten).Perm
        ((s.queue ++ s.pending.flatten) ++ [s.ctr]) := by
      rw [List.append_assoc, List.append_assoc]
      exact List.Perm.append_left _ List.perm_append_comm
    have hnodup1 : ((s.queue ++ [s.ctr]) ++ s.pending.flatten).Nodup := by
      refine hperm0.symm.nodup (List.nodup_append.mpr ⟨hnd, List.nodup_singleton _, ?_⟩)
      intro x hx hx1
      rw [List.mem_singleton] at hx1
      exact absurd hx1 (Nat.ne_of_lt (hbd x hx))
    have hbound1 : ∀ x ∈ (s.queue ++ [s.ctr]) ++ s.pending.flatten, x < s.ctr + 1 := by
      intro x hx
      rcases List.mem_append.mp (hperm0.mem_iff.mp hx) with hx2 | hx2
      · exact Nat.lt_succ_of_lt (hbd x hx2)
      · rw [List.mem_singleton] at hx2
        omega
    simp only [enqStep]
    split
    · refine ⟨?_, ?_⟩
      · exact (cut_contents_perm (s.queue ++ [s.ctr]) s.pending s.k).symm.nodup hnodup1
      · intro x hx
        exact hbound1 x ((cut_contents_perm (s.queue ++ [s.ctr]) s.pending s.k).mem_iff.mp hx)
    · exact ⟨hnodup1, hbound1⟩
  | timer =>
    simp only [timerStep]
    split
    · exact ⟨hnd, hbd⟩
    · refine ⟨(cut_contents_perm s.queue s.pending s.k).symm.nodup hnd, ?_⟩
      intro x hx
      exact hbd x ((cut_contents_perm s.queue s.pending s.k).mem_iff.mp hx)
  | resolve i ok =>
    cases hget : s.pending.get? i with
    | none =>
      have hres : resolveStep s i ok = s := by
        unfold resolveStep
        rw [hget]
      rw [hres]
      exact ⟨hnd, hbd⟩
    | some batch =>
      have hpf : s.pending.flatten.Perm (batch ++ (s.pending.eraseIdx i).flatten) := by
        have hp := (get_eraseIdx_perm s.pending i batch hget).flatten
        rwa [List.flatten_cons] at hp
      have hall : (s.queue ++ s.pending.flatten).Perm
          (s.queue ++ (batch ++ (s.pending.eraseIdx i).flatten)) :=
        List.Perm.append_left _ hpf
      cases ok with
      | true =>
        have hres : resolveStep s i true =
            { k := s.k, queue := s.queue, pending := s.pending.eraseIdx i, ctr := s.ctr } := by
          unfold resolveStep
          rw [hget]
          rfl
        rw [hres]
        have hsub : List.Sublist (s.queue ++ (s.pending.eraseIdx i).flatten)
            (s.queue ++ (batch ++ (s.pending.eraseIdx i).flatten)) :=
          (List.sublist_append_right batch _).append_left s.queue
        refine ⟨(hall.nodup hnd).sublist hsub, ?_⟩
        intro x hx
        exact hbd x (hall.symm.mem_iff.mp (hsub.mem hx))
      | false =>
        have hres : resolveStep s i false =
            { k := s.k, queue := batch ++ s.queue
              pending := s.pending.eraseIdx i, ctr := s.ctr } := by
          unfold resolveStep
          rw [hget]
          rfl
        rw [hres]
        have hperm3 : ((batch ++ s.queue) ++ (s.pending.eraseIdx i).flatten).Perm
            (s.queue ++ s.pending.flatten) := by
          rw [List.append_assoc]
          exact (List.perm_append_comm_assoc _ _ _).trans
            (List.Perm.append_left _ hpf.symm)
        refine ⟨hperm3.symm.nodup hnd, ?_⟩
        intro x hx
        exact hbd x (hperm3.mem_iff.mp hx)

/-- The invariant holds in every reachable state. -/
theorem flightInv_reach {k : Nat} {s : FlightState}
    (h : FlightReach (flightInit k) s) : FlightInv s := by
  induction h with
  | refl => exact flightInv_init k
  | tail _ hstep ih => exact flightInv_step ih hstep

/-- C9 amended: more than one delivery attempt can be outstanding at a
time (size-triggered flushes do not wait for the in-flight attempt,
and the timer is re-armed at enqueue time rather than after
resolution — see the counterexample); what does hold is that the same
buffer contents are never submitted concurrently: in every reachable
state of the buffer/delivery machine no event instance occurs twice
across the buffer and the outstanding batches, so any two distinct
outstanding attempts are disjoint. -/
theorem outstanding_batches_disjoint (k : Nat) (s : FlightState)
    (h : FlightReach (flightInit k) s) :
    (s.queue ++ s.pending.flatten).Nodup
    ∧ ∀ i j b c, i ≠ j → s.pending.get? i = some b → s.pending.get? j = some c →
        ∀ x ∈ b, x ∉ c := by
  have hinv := flightInv_reach h
  exact ⟨hinv.1, flatten_nodup_disjoint s.pending hinv.1.of_append_right⟩

/-- Witness for the amended C9: after one enqueue from a fresh machine
with `k = 1` the invariant conclusion holds. -/
theorem outstanding_batches_disjoint_witness :
    ((enqStep (flightInit 1)).queue ++ (enqStep (flightInit 1)).pending.flatten).Nodup :=
  (outstanding_batches_disjoint 1 (enqStep (flightInit 1))
    (FlightReach.tail (FlightReach.refl _) (FlightStep.enq _))).1

end Mentiq
